import Mathlib

set_option maxRecDepth 16384

/-!
Verification of the Rewiki article generation and revision pipeline.

This file gives a shallow embedding, in Lean 4, of the parts of the
Rewiki-Beta repository that its specification talks about:

* the response handling of `generateRewikiArticle` and `analyzeRevision`
  (src/unnamed/part_000, the Gemini service module), including the
  markdown-fence stripper `cleanJson` and the behaviour of the JavaScript
  builtins it relies on (`JSON.parse`, `Date.now().toString()`,
  truthiness tests, property assignment on parsed objects);
* the revision application performed by `submitRevision`
  (src/components/ui.tsx, lines 218-245);
* the history update `addToHistory` (src/App.tsx, lines 32-39).

External network behaviour is modelled as an explicit oracle input: the
text (or absence of text, or a thrown transport error) that the external
generative service returns, the current clock reading, the locale date
string and the outcome of the best-effort image generation are all
parameters of the embedded functions.  Everything below is executable.
-/

namespace Rewiki

/-! ## JavaScript string primitives

Whitespace, trimming, and decimal rendering of integers, as used by the
source through `\s` in regexes, `String.prototype.trim` and
`Number.prototype.toString`. -/

/-- Characters matched by the JavaScript regex class `\s` (and stripped by
`String.prototype.trim`), restricted to the code points that can occur in
the payloads this development manipulates. -/
def isSpaceJS (c : Char) : Bool :=
  c = ' ' || c = '\t' || c = '\n' || c = '\r' || c = '\x0b' || c = '\x0c'

/-- Model of `String.prototype.trim` on character lists: drop leading and
trailing whitespace. -/
def trimJS (cs : List Char) : List Char :=
  ((cs.dropWhile isSpaceJS).reverse.dropWhile isSpaceJS).reverse

/-- Decimal digits of `n`, least significant first, computed with explicit
fuel so that the definition unfolds by `decide` on concrete inputs.  For
`n = 0` the digit list is empty. -/
def natDigitsRevFuel : Nat → Nat → List Nat
  | 0, _ => []
  | fuel + 1, n => if n = 0 then [] else n % 10 :: natDigitsRevFuel fuel (n / 10)

/-- Model of `Number.prototype.toString()` (base 10) for the nonnegative
integers produced by `Date.now()`. -/
def natToString (n : Nat) : String :=
  if n = 0 then "0" else ⟨((natDigitsRevFuel (n + 1) n).reverse).map Nat.digitChar⟩

/-- Value of a least-significant-first digit list. -/
def undigits : List Nat → Nat
  | [] => 0
  | d :: ds => d + 10 * undigits ds

/-- Inverse of `Nat.digitChar` on actual digits. -/
def charDigitVal (c : Char) : Nat := c.toNat - 48

/-- Decode the decimal rendering back to its value; inverse of
`natToString`. -/
def strValNat (s : String) : Nat :=
  undigits ((s.data.map charDigitVal).reverse)

/-! ## JSON values and a model of `JSON.parse`

The service module feeds the (fence-stripped) response text to
`JSON.parse` and never validates the resulting shape: the `as` casts in
the TypeScript are compile-time only.  We therefore model parsed data as
untyped `Json` values.  Numbers keep their source lexeme: the pipeline
never does arithmetic on them, so no floating point semantics is
needed. -/

inductive Json where
  | null
  | bool (b : Bool)
  | num (lexeme : String)
  | str (s : String)
  | arr (elems : List Json)
  | obj (fields : List (String × Json))

/-- Drop leading JSON whitespace. -/
def skipWsJS (cs : List Char) : List Char := cs.dropWhile isSpaceJS

/-- Strip an expected literal character sequence, or fail. -/
def stripLit : List Char → List Char → Option (List Char)
  | [], cs => some cs
  | _ :: _, [] => none
  | p :: ps, c :: cs => if c = p then stripLit ps cs else none

/-- Value of a hexadecimal digit. -/
def parseHexDigit (c : Char) : Option Nat :=
  if '0' ≤ c ∧ c ≤ '9' then some (c.toNat - 48)
  else if 'a' ≤ c ∧ c ≤ 'f' then some (c.toNat - 87)
  else if 'A' ≤ c ∧ c ≤ 'F' then some (c.toNat - 55)
  else none

/-- Single-character JSON string escapes. -/
def escChar (e : Char) : Option Char :=
  if e = '"' ∨ e = '\\' ∨ e = '/' then some e
  else if e = 'b' then some '\x08'
  else if e = 'f' then some '\x0c'
  else if e = 'n' then some '\n'
  else if e = 'r' then some '\r'
  else if e = 't' then some '\t'
  else none

/-- Parse the body of a JSON string after the opening quote; returns the
decoded characters and the input remaining after the closing quote.
Unicode escapes denoting surrogate halves are rejected (they have no
`Char` representation; no payload in this development contains one). -/
def parseStringBody : List Char → Option (List Char × List Char)
  | [] => none
  | '"' :: cs => some ([], cs)
  | '\\' :: 'u' :: h1 :: h2 :: h3 :: h4 :: cs =>
    match parseHexDigit h1, parseHexDigit h2, parseHexDigit h3, parseHexDigit h4 with
    | some a, some b, some c, some d =>
      let code := ((a * 16 + b) * 16 + c) * 16 + d
      if h : code.isValidChar then
        (fun r => (Char.ofNatAux code h :: r.1, r.2)) <$> parseStringBody cs
      else none
    | _, _, _, _ => none
  | '\\' :: e :: cs =>
    match escChar e with
    | some ec => (fun r => (ec :: r.1, r.2)) <$> parseStringBody cs
    | none => none
  | c :: cs =>
    if c.toNat < 32 then none
    else (fun r => (c :: r.1, r.2)) <$> parseStringBody cs

/-- Parse an optional JSON fraction part, returning its characters. -/
def parseFrac : List Char → Option (List Char × List Char)
  | '.' :: rest =>
    let ds := rest.takeWhile Char.isDigit
    if ds.isEmpty then none else some ('.' :: ds, rest.dropWhile Char.isDigit)
  | cs => some ([], cs)

/-- Parse an optional JSON exponent part, returning its characters. -/
def parseExp : List Char → Option (List Char × List Char)
  | c :: rest =>
    if c = 'e' ∨ c = 'E' then
      let (sgn, rest1) : List Char × List Char :=
        match rest with
        | s :: r => if s = '+' ∨ s = '-' then ([s], r) else ([], s :: r)
        | [] => ([], [])
      let ds := rest1.takeWhile Char.isDigit
      if ds.isEmpty then none
      else some (c :: (sgn ++ ds), rest1.dropWhile Char.isDigit)
    else some ([], c :: rest)
  | [] => some ([], [])

/-- Assemble a number lexeme from its sign, integer part and the rest. -/
def afterInt (sign ip cs : List Char) : Option (List Char × List Char) := do
  let (fp, cs1) ← parseFrac cs
  let (ep, cs2) ← parseExp cs1
  some (sign ++ ip ++ fp ++ ep, cs2)

/-- Parse a JSON number per the `JSON.parse` grammar (no leading zeros,
optional fraction and exponent); returns the lexeme and the rest. -/
def parseNumber (cs : List Char) : Option (List Char × List Char) :=
  let (sign, cs1) : List Char × List Char :=
    match cs with
    | '-' :: rest => (['-'], rest)
    | _ => ([], cs)
  match cs1 with
  | [] => none
  | c :: rest =>
    if c = '0' then
      match rest with
      | d :: _ => if d.isDigit then none else afterInt sign ['0'] rest
      | [] => afterInt sign ['0'] []
    else if c.isDigit then
      afterInt sign ((c :: rest).takeWhile Char.isDigit)
        ((c :: rest).dropWhile Char.isDigit)
    else none

/-- Assignment of a property on a parsed object, as JavaScript does it: an
existing key is updated in place, a new key is appended. -/
def objSet (fields : List (String × Json)) (key : String) (v : Json) :
    List (String × Json) :=
  if fields.any (fun p => p.1 == key) then
    fields.map (fun p => if p.1 == key then (key, v) else p)
  else fields ++ [(key, v)]

mutual

/-- Parse one JSON value; fuel-indexed recursive descent. -/
def parseValue : Nat → List Char → Option (Json × List Char)
  | 0, _ => none
  | fuel + 1, cs =>
    match skipWsJS cs with
    | [] => none
    | c :: rest =>
      if c = '{' then
        match skipWsJS rest with
        | '}' :: rest1 => some (.obj [], rest1)
        | _ => parseMembers fuel rest []
      else if c = '[' then
        match skipWsJS rest with
        | ']' :: rest1 => some (.arr [], rest1)
        | _ => parseElems fuel rest []
      else if c = '"' then
        match parseStringBody rest with
        | some (body, rest1) => some (.str ⟨body⟩, rest1)
        | none => none
      else if c = 't' then
        match stripLit ['r', 'u', 'e'] rest with
        | some rest1 => some (.bool true, rest1)
        | none => none
      else if c = 'f' then
        match stripLit ['a', 'l', 's', 'e'] rest with
        | some rest1 => some (.bool false, rest1)
        | none => none
      else if c = 'n' then
        match stripLit ['u', 'l', 'l'] rest with
        | some rest1 => some (Json.null, rest1)
        | none => none
      else
        match parseNumber (c :: rest) with
        | some (lex, rest1) => some (.num ⟨lex⟩, rest1)
        | none => none

/-- Parse the elements of a non-empty JSON array after `[`. -/
def parseElems : Nat → List Char → List Json → Option (Json × List Char)
  | 0, _, _ => none
  | fuel + 1, cs, acc =>
    match parseValue fuel cs with
    | none => none
    | some (v, rest) =>
      match skipWsJS rest with
      | ',' :: rest1 => parseElems fuel rest1 (acc ++ [v])
      | ']' :: rest1 => some (.arr (acc ++ [v]), rest1)
      | _ => none

/-- Parse the members of a non-empty JSON object after the opening brace;
a duplicated key overwrites the earlier one, as `JSON.parse` does. -/
def parseMembers : Nat → List Char → List (String × Json) →
    Option (Json × List Char)
  | 0, _, _ => none
  | fuel + 1, cs, acc =>
    match skipWsJS cs with
    | '"' :: rest =>
      match parseStringBody rest with
      | none => none
      | some (key, rest1) =>
        match skipWsJS rest1 with
        | ':' :: rest2 =>
          match parseValue fuel rest2 with
          | none => none
          | some (v, rest3) =>
            match skipWsJS rest3 with
            | ',' :: rest4 => parseMembers fuel rest4 (objSet acc ⟨key⟩ v)
            | '}' :: rest4 => some (.obj (objSet acc ⟨key⟩ v), rest4)
            | _ => none
        | _ => none
    | _ => none

end

/-- Model of `JSON.parse`: `none` is a thrown `SyntaxError`.  The fuel is
generous: every two units of fuel consume at least one input character. -/
def jsonParse (s : String) : Option Json :=
  match parseValue (2 * s.length + 4) s.data with
  | some (j, rest) => if (skipWsJS rest).isEmpty then some j else none
  | none => none

/-! ## The fence stripper `cleanJson`

Source (src/unnamed/part_000 lines 243-245):
`text.replace(/^```json\s*/i, '').replace(/^```\s*/, '').replace(/\s*```$/, '').trim()`. -/

/-- Model of `.replace(/^```json\s*/i, '')`: one anchored match, the
`json` tag case-insensitive, trailing whitespace consumed greedily. -/
def dropFencePrefixJson : List Char → List Char
  | '`' :: '`' :: '`' :: c1 :: c2 :: c3 :: c4 :: rest =>
    if (c1 = 'j' ∨ c1 = 'J') ∧ (c2 = 's' ∨ c2 = 'S') ∧ (c3 = 'o' ∨ c3 = 'O')
        ∧ (c4 = 'n' ∨ c4 = 'N') then
      skipWsJS rest
    else '`' :: '`' :: '`' :: c1 :: c2 :: c3 :: c4 :: rest
  | cs => cs

/-- Model of `.replace(/^```\s*/, '')`. -/
def dropFencePrefixPlain : List Char → List Char
  | '`' :: '`' :: '`' :: rest => skipWsJS rest
  | cs => cs

/-- Model of `.replace(/\s*```$/, '')`: the leftmost match of that
end-anchored pattern removes a final triple backtick together with the
whitespace run immediately before it. -/
def dropFenceSuffix (cs : List Char) : List Char :=
  match cs.reverse with
  | '`' :: '`' :: '`' :: rest => (rest.dropWhile isSpaceJS).reverse
  | _ => cs

/-- Model of the helper `cleanJson` (src/unnamed/part_000 lines 243-245):
strip markdown code-fence wrapping, then trim. -/
def cleanJson (text : String) : String :=
  ⟨trimJS (dropFenceSuffix (dropFencePrefixPlain (dropFencePrefixJson text.data)))⟩

/-! ## The data model (src/types.ts) -/

inductive Language where
  | en
  | es
deriving DecidableEq, Repr

/-- The string value of a `Language` tag, as it appears in JavaScript. -/
def langCode : Language → String
  | .en => "en"
  | .es => "es"

structure ArticleSection where
  id : String
  heading : String
  content : String
deriving DecidableEq, Repr

structure QuizQuestion where
  question : String
  options : List String
  correctAnswer : Nat
deriving DecidableEq, Repr

structure RewikiArticle where
  id : String
  topic : String
  summary : String
  sections : List ArticleSection
  imagePrompts : List String
  generatedImage : Option String
  originalSnippet : String
  lastUpdated : String
  changeLog : String
  didYouKnow : String
  homeworkHelp : List String
  quiz : List QuizQuestion
  relatedTopics : List String
  language : Language
deriving DecidableEq, Repr

/-- The `'fix' | 'add'` edit-kind flag. -/
inductive EditType where
  | fix
  | add
deriving DecidableEq, Repr

/-- Result of `analyzeRevision`; `newContent = none` models the field
being absent (`undefined`). -/
structure RevisionResult where
  accepted : Bool
  newContent : Option String
  reasoning : String
deriving DecidableEq, Repr

/-! ## JavaScript dynamic-value helpers -/

/-- Read a property of a parsed object. -/
def objGet (fields : List (String × Json)) (key : String) : Option Json :=
  match fields.find? (fun p => p.1 == key) with
  | some p => some p.2
  | none => none

/-- JavaScript truthiness of a property read: absent (`undefined`),
`null`, `false`, `""` and numeric zero are falsy.  `NaN` cannot arise
from a JSON literal. -/
def jsTruthy : Option Json → Bool
  | none => false
  | some .null => false
  | some (.bool b) => b
  | some (.num lexeme) =>
    -- a JSON numeral denotes zero exactly when every mantissa digit is 0
    ¬ (lexeme.data.takeWhile (fun c => c ≠ 'e' ∧ c ≠ 'E')).all
        (fun c => ¬ c.isDigit ∨ c = '0')
  | some (.str s) => s ≠ ""
  | some (.arr _) => true
  | some (.obj _) => true

/-- JavaScript `.length > 0` on a property value: positive for non-empty
arrays and strings, false for every other value (absent `.length` gives
`undefined > 0`, which is false). -/
def jsLengthPos : Json → Bool
  | .arr xs => 0 < xs.length
  | .str s => 0 < s.length
  | _ => false

/-- Truthiness of an optional string, as in `result.newContent &&`. -/
def jsTruthyStr : Option String → Bool
  | none => false
  | some s => s ≠ ""

/-- JavaScript `x || dflt` where `x` is an optional string. -/
def jsOrStr (x : Option String) (dflt : String) : String :=
  match x with
  | some s => if s ≠ "" then s else dflt
  | none => dflt

/-! ## The Content Generator (src/unnamed/part_000, `generateRewikiArticle`)

The external service is an oracle: `responseText` is `response.text`
(`none` when the service produced no text), and `GenEnv` carries the
clock reading used for the identifier, the locale date string, and the
outcome of the best-effort `generateTopicImage` call. -/

inductive GenError where
  | noContent
  | invalidJson
  | notAnObject
deriving DecidableEq, Repr

structure GenEnv where
  now : Nat
  localeDate : String
  imageResult : Option String
deriving DecidableEq, Repr

/-- Model of `generateRewikiArticle` (src/unnamed/part_000 lines 248-330)
from the point where the service response is available: strip fences,
parse as JSON, assign `id` from the clock and `language` from the
request, default `lastUpdated`, and attach the best-effort image.  The
`as RewikiArticle` cast performs no validation, so the successful result
is the parsed object itself; a payload whose top-level value is not an
object is rejected (property assignment on a primitive throws in strict
mode; a top-level array, which would accept expando properties, is
outside every claim about this function).

The sequence of property assignments `generateRewikiArticle` performs
on the parsed object: `data.id = Date.now().toString()`,
`data.language = lang`, the `lastUpdated` default, and the best-effort
`generatedImage` attachment. -/
def assignGeneratedFields (fields : List (String × Json)) (lang : Language)
    (env : GenEnv) : List (String × Json) :=
  let fields := objSet fields "id" (.str (natToString env.now))
  let fields := objSet fields "language" (.str (langCode lang))
  let fields :=
    if jsTruthy (objGet fields "lastUpdated") then fields
    else objSet fields "lastUpdated" (.str env.localeDate)
  if (objGet fields "imagePrompts").elim false jsLengthPos then
    match env.imageResult with
    | some img =>
      if img ≠ "" then objSet fields "generatedImage" (.str img)
      else fields
    | none => fields
  else fields

/-- Model of `generateRewikiArticle` itself: handle the absent-text case,
strip fences, parse, and either fail or return the assigned object. -/
def generateRewikiArticle (topic : String) (lang : Language)
    (responseText : Option String) (env : GenEnv) : Except GenError Json :=
  match responseText with
  | none => .error .noContent
  | some text =>
    match jsonParse (cleanJson text) with
    | none => .error .invalidJson
    | some (.obj fields) => .ok (.obj (assignGeneratedFields fields lang env))
    | some _ => .error .notAnObject

/-! ## The Revision Analyzer (src/unnamed/part_000, `analyzeRevision`) -/

/-- The fixed verdict built in the catch-all handler of
`analyzeRevision`. -/
def serviceUnavailableVerdict : RevisionResult :=
  { accepted := false, newContent := none,
    reasoning := "AI Service unavailable or response invalid." }

/-- The unchecked `as RevisionResult` cast: the parsed JSON is handed
back as-is, and consumers read its fields dynamically.  Fields of an
unexpected type behave like their JavaScript reads (a missing or
non-object payload yields falsy `accepted` and `undefined`
`newContent`); no claim depends on off-shape success payloads. -/
def jsToRevisionResult (j : Json) : RevisionResult :=
  match j with
  | .obj fields =>
    { accepted := jsTruthy (objGet fields "accepted")
      newContent :=
        match objGet fields "newContent" with
        | some (.str s) => some s
        | _ => none
      reasoning :=
        match objGet fields "reasoning" with
        | some (.str s) => s
        | _ => "" }
  | _ => { accepted := false, newContent := none, reasoning := "" }

/-- Model of `analyzeRevision` (src/unnamed/part_000 lines 332-371).  The
oracle input is the whole external interaction: `.error ()` is a thrown
transport error, `.ok none` a response with no text, `.ok (some t)` a
response with text `t`.  Every failure lands in the single catch-all,
which returns `serviceUnavailableVerdict`; the function is total, which
is the embedded form of "never raises past its own boundary". -/
def analyzeRevision (currentText userSelection userRequest : String)
    (lang : Language) (editType : EditType)
    (response : Except Unit (Option String)) : RevisionResult :=
  match response with
  | .error _ => serviceUnavailableVerdict
  | .ok none => serviceUnavailableVerdict
  | .ok (some text) =>
    match jsonParse (cleanJson text) with
    | none => serviceUnavailableVerdict
    | some j => jsToRevisionResult j

/-! ## Revision application (src/components/ui.tsx, `submitRevision`)

The state update performed inside the `setTimeout` callback of
`submitRevision` (lines 218-245), which runs exactly when
`result.accepted` held.  `selection` is the selected excerpt text, if
any; `now` is the `Date.now()` reading used for a new section id. -/

/-- Model of `String.prototype.includes`: verbatim substring test. -/
def strIncludes (s pat : String) : Bool :=
  decide (pat.data <:+: s.data)

/-- Model of the article update published through `onUpdateArticle`.  A
general fix (`editType = fix`, no selection, truthy `newContent`) writes
`newSections[0].content` directly; on an article with no sections that
line throws a `TypeError` in the source, which the model renders as
`none`. -/
def applyRevision (article : RewikiArticle) (selection : Option String)
    (editType : EditType) (result : RevisionResult) (now : Nat) :
    Option RewikiArticle :=
  let note := if editType = .add then "Added section" else "Fixed info"
  if editType = .add ∧ jsTruthyStr result.newContent then
    some { article with
      sections := article.sections ++
        [{ id := natToString now, heading := "New Section",
           content := result.newContent.getD "" }]
      changeLog := article.changeLog ++ " | " ++ note }
  else
    let mapped := article.sections.map (fun s =>
      if (match selection with
          | some sel => strIncludes s.content sel
          | none => false) then
        { s with content := jsOrStr result.newContent s.content }
      else s)
    if selection = none ∧ jsTruthyStr result.newContent ∧ editType = .fix then
      match mapped with
      | [] => none
      | s0 :: rest =>
        some { article with
          sections :=
            ({ s0 with content := result.newContent.getD "" }) :: rest
          changeLog := article.changeLog ++ " | " ++ note }
    else
      some { article with
        sections := mapped
        changeLog := article.changeLog ++ " | " ++ note }

/-! ## History (src/App.tsx, `addToHistory`) -/

/-- Model of the updater passed to `setHistory` (App.tsx lines 32-39):
drop previous entries with the same topic, prepend the new article, keep
the first 10. -/
def addToHistory (article : RewikiArticle) (prev : List RewikiArticle) :
    List RewikiArticle :=
  (article :: prev.filter (fun a => a.topic != article.topic)).take 10

/-- In-memory history together with the value last written to
`localStorage` under the history key (parsed form; `none` means the key
was never written). -/
structure HistoryStore where
  history : List RewikiArticle
  stored : Option (List RewikiArticle)
deriving DecidableEq, Repr

/-- One `addToHistory` call: compute the updated list and persist it
wholesale (`localStorage.setItem` overwrites the full list). -/
def addToHistoryStep (article : RewikiArticle) (st : HistoryStore) :
    HistoryStore :=
  let updated := addToHistory article st.history
  { history := updated, stored := some updated }

/-- Run a whole sequence of insertions from the initial (empty,
never-persisted) state. -/
def runHistory (inserts : List RewikiArticle) : HistoryStore :=
  inserts.foldl (fun st a => addToHistoryStep a st)
    { history := [], stored := none }

/-! ## A serializer for JSON payloads

Claim C9 quantifies over "every JSON payload"; we represent a payload by
its `Json` value and the text of the payload by this serializer, so the
fence-stripping property can be proved for all payloads by structural
facts about serialized text (it starts and ends with a structural JSON
character, never a backtick or whitespace). -/

/-- Escape one character for a JSON string literal. -/
def escapeJsonChar (c : Char) : List Char :=
  if c = '"' then ['\\', '"']
  else if c = '\\' then ['\\', '\\']
  else if c = '\n' then ['\\', 'n']
  else if c = '\r' then ['\\', 'r']
  else if c = '\t' then ['\\', 't']
  else if c.toNat < 32 then
    ['\\', 'u', '0', '0', Nat.digitChar (c.toNat / 16), Nat.digitChar (c.toNat % 16)]
  else [c]

mutual

/-- Render a `Json` value as JSON text (no added whitespace). -/
def serializeJson : Json → List Char
  | .null => "null".data
  | .bool true => "true".data
  | .bool false => "false".data
  | .num lexeme => lexeme.data
  | .str s => '"' :: (s.data.flatMap escapeJsonChar ++ ['"'])
  | .arr xs => '[' :: (serializeElemsJson xs ++ [']'])
  | .obj fs => '\x7b' :: (serializeMembersJson fs ++ ['\x7d'])

/-- Render array elements, comma separated. -/
def serializeElemsJson : List Json → List Char
  | [] => []
  | [x] => serializeJson x
  | x :: xs => serializeJson x ++ ',' :: serializeElemsJson xs

/-- Render object members, comma separated. -/
def serializeMembersJson : List (String × Json) → List Char
  | [] => []
  | [(k, v)] => '"' :: (k.data.flatMap escapeJsonChar ++ ['"', ':']) ++ serializeJson v
  | (k, v) :: xs =>
    ('"' :: (k.data.flatMap escapeJsonChar ++ ['"', ':']) ++ serializeJson v)
      ++ ',' :: serializeMembersJson xs

end

/-- The string form of a serialized payload. -/
def serializeJsonStr (j : Json) : String := ⟨serializeJson j⟩

/-- Characters a JSON number lexeme may consist of. -/
def lexemeOkChar (c : Char) : Bool :=
  c.isDigit || c = '-' || c = '+' || c = '.' || c = 'e' || c = 'E'

/-- Well-formedness of the top-level value's number lexeme (any payload
produced by the parser satisfies it); nested values are irrelevant to the
fence-stripping property. -/
def jsonTopNumOk : Json → Prop
  | .num lexeme => lexeme.data ≠ [] ∧ lexeme.data.all lexemeOkChar = true
  | _ => True

/-! ## Observers and status predicates used by the claims -/

/-- Whether a parse produced a JSON object. -/
def isObjJson : Option Json → Bool
  | some (.obj _) => true
  | _ => false

/-- The `id` property of a successful generation result. -/
def genIdOf : Except GenError Json → Option Json
  | .ok (.obj fs) => objGet fs "id"
  | _ => none

/-- The failure behaviours of the external service during
`analyzeRevision`: a thrown transport error, a response with no text, or
response text that does not parse as JSON after fence stripping. -/
def isServiceFailure (response : Except Unit (Option String)) : Prop :=
  response = .error () ∨ response = .ok none ∨
    ∃ t, response = .ok (some t) ∧ jsonParse (cleanJson t) = none

/-! ## Concrete sample data for witnesses and counterexamples -/

/-- A sample article with two sections. -/
def sampleArticle : RewikiArticle :=
  { id := "1", topic := "Cats", summary := "s",
    sections := [⟨"s1", "H1", "foo bar"⟩, ⟨"s2", "H2", "baz qux"⟩],
    imagePrompts := ["p"], generatedImage := none, originalSnippet := "o",
    lastUpdated := "2025-01-01", changeLog := "initial", didYouKnow := "dyk",
    homeworkHelp := ["h"], quiz := [], relatedTopics := ["r"],
    language := .en }

/-- A second sample article on another topic. -/
def sampleArticleB : RewikiArticle :=
  { sampleArticle with id := "2", topic := "Dogs" }

/-- A third sample article, again on the first topic. -/
def sampleArticleA2 : RewikiArticle :=
  { sampleArticle with id := "3", topic := "Cats", summary := "s2" }

/-- An article whose single section carries the identifier "5" (as a
prior `Add` revision performed at clock reading 5 would have left it). -/
def sampleArticleId5 : RewikiArticle :=
  { sampleArticle with sections := [⟨"5", "New Section", "old"⟩] }

/-- A full Article-shaped JSON payload, as the generator expects it. -/
def payloadCats : String :=
  "\x7b\"topic\":\"Cats\",\"summary\":\"s\",\"sections\":[\x7b\"id\":\"s1\",\"heading\":\"h\",\"content\":\"c\"\x7d],\"imagePrompts\":[\"p\"],\"originalSnippet\":\"o\",\"changeLog\":\"cl\",\"didYouKnow\":\"dyk\",\"homeworkHelp\":[\"hh\"],\"relatedTopics\":[\"rt\"],\"quiz\":[],\"lastUpdated\":\"2025-01-01\",\"language\":\"en\"\x7d"

/-- A second Article-shaped payload, for a different topic. -/
def payloadDogs : String :=
  "\x7b\"topic\":\"Dogs\",\"summary\":\"s\",\"sections\":[\x7b\"id\":\"s1\",\"heading\":\"h\",\"content\":\"c\"\x7d],\"imagePrompts\":[],\"originalSnippet\":\"o\",\"changeLog\":\"cl\",\"didYouKnow\":\"dyk\",\"homeworkHelp\":[],\"relatedTopics\":[],\"quiz\":[],\"lastUpdated\":\"2025-01-02\",\"language\":\"en\"\x7d"


/-! ## Lemmas about the decimal rendering -/

theorem undigits_natDigitsRevFuel (fuel : Nat) :
    ∀ n : Nat, n < 10 ^ fuel → undigits (natDigitsRevFuel fuel n) = n := by
  induction fuel with
  | zero =>
    intro n hn
    simp only [pow_zero, Nat.lt_one_iff] at hn
    subst hn
    rfl
  | succ fuel ih =>
    intro n hn
    by_cases h0 : n = 0
    · subst h0
      simp [natDigitsRevFuel, undigits]
    · have hdiv : n / 10 < 10 ^ fuel := by
        rw [Nat.div_lt_iff_lt_mul (by norm_num)]
        calc n < 10 ^ (fuel + 1) := hn
        _ = 10 ^ fuel * 10 := by ring
      simp only [natDigitsRevFuel, h0, if_false, undigits, ih (n / 10) hdiv]
      omega


theorem natDigitsRevFuel_lt_ten (fuel : Nat) :
    ∀ n d : Nat, d ∈ natDigitsRevFuel fuel n → d < 10 := by
  induction fuel with
  | zero => intro n d hd; simp [natDigitsRevFuel] at hd
  | succ fuel ih =>
    intro n d hd
    by_cases h0 : n = 0
    · subst h0; simp [natDigitsRevFuel] at hd
    · simp only [natDigitsRevFuel, h0, if_false, List.mem_cons] at hd
      rcases hd with h | h
      · subst h; exact Nat.mod_lt _ (by norm_num)
      · exact ih _ _ h


theorem charDigitVal_digitChar {d : Nat} (hd : d < 10) :
    charDigitVal (Nat.digitChar d) = d := by
  interval_cases d <;> rfl


theorem lt_ten_pow_succ (n : Nat) : n < 10 ^ (n + 1) := by
  calc n < 10 ^ n := Nat.lt_pow_self (by norm_num) n
  _ ≤ 10 ^ (n + 1) := Nat.pow_le_pow_right (by norm_num) (Nat.le_succ n)


theorem strValNat_natToString (n : Nat) : strValNat (natToString n) = n := by
  by_cases h0 : n = 0
  · subst h0; rfl
  · have hdata : (natToString n).data
        = ((natDigitsRevFuel (n + 1) n).reverse).map Nat.digitChar := by
      simp [natToString, h0]
    have hmap :
        (((natDigitsRevFuel (n + 1) n).reverse).map Nat.digitChar).map charDigitVal
          = (natDigitsRevFuel (n + 1) n).reverse := by
      rw [List.map_map]
      have : ∀ d ∈ (natDigitsRevFuel (n + 1) n).reverse,
          (charDigitVal ∘ Nat.digitChar) d = id d := by
        intro d hd
        have : d < 10 := natDigitsRevFuel_lt_ten _ _ _ (List.mem_reverse.mp hd)
        simpa using charDigitVal_digitChar this
      rw [List.map_congr_left this, List.map_id]
    rw [strValNat, hdata, hmap, List.reverse_reverse]
    exact undigits_natDigitsRevFuel _ _ (lt_ten_pow_succ n)


theorem natToString_injective : Function.Injective natToString := by
  intro n m h
  have := strValNat_natToString n
  rw [h, strValNat_natToString] at this
  exact this.symm

/-! ## Lemmas about object property access -/

theorem objGet_cons (p : String × Json) (fs : List (String × Json))
    (key : String) :
    objGet (p :: fs) key = if p.1 == key then some p.2 else objGet fs key := by
  unfold objGet
  by_cases hp : (p.1 == key) = true
  · simp [List.find?, hp]
  · simp [List.find?, hp]

theorem objGet_map_update (fields : List (String × Json)) (k k2 : String)
    (v : Json) (h : (k == k2) = false) :
    objGet (fields.map (fun p => if p.1 == k then (k, v) else p)) k2
      = objGet fields k2 := by
  induction fields with
  | nil => rfl
  | cons q qs ih =>
    rw [List.map_cons]
    by_cases hq : (q.1 == k) = true
    · rw [if_pos hq, objGet_cons, objGet_cons]
      have hqk : q.1 = k := by simpa using hq
      rw [if_neg (by simp [h]), if_neg (by simp [hqk, h])]
      exact ih
    · rw [if_neg hq, objGet_cons, objGet_cons]
      by_cases hq2 : (q.1 == k2) = true
      · rw [if_pos hq2, if_pos hq2]
      · rw [if_neg hq2, if_neg hq2]
        exact ih

theorem objGet_objSet_same (fields : List (String × Json)) (key : String)
    (v : Json) : objGet (objSet fields key v) key = some v := by
  unfold objSet
  by_cases h : fields.any (fun p => p.1 == key) = true
  · rw [if_pos h]
    induction fields with
    | nil => simp at h
    | cons q qs ih =>
      rw [List.map_cons]
      by_cases hq : (q.1 == key) = true
      · rw [if_pos hq, objGet_cons]
        simp
      · rw [if_neg hq, objGet_cons, if_neg hq]
        exact ih (by simpa [List.any_cons, hq] using h)
  · rw [if_neg h]
    have hnone : fields.find? (fun p => p.1 == key) = none := by
      rw [List.find?_eq_none]
      intro p hp hpk
      exact h (List.any_eq_true.mpr ⟨p, hp, hpk⟩)
    unfold objGet
    rw [List.find?_append, hnone, Option.none_or,
      List.find?_cons_of_pos _ (by simp)]

theorem objGet_objSet_other (fields : List (String × Json)) (k k2 : String)
    (v : Json) (h : k ≠ k2) :
    objGet (objSet fields k v) k2 = objGet fields k2 := by
  unfold objSet
  by_cases hany : fields.any (fun p => p.1 == k) = true
  · rw [if_pos hany]
    exact objGet_map_update fields k k2 v (by simpa using h)
  · rw [if_neg hany]
    unfold objGet
    rw [List.find?_append]
    have h1 : List.find? (fun p => p.1 == k2) [(k, v)] = none := by
      rw [List.find?_cons_of_neg _ (by simpa using h)]
      rfl
    rw [h1]
    cases fields.find? (fun p => p.1 == k2) <;> rfl

/-! ## Lemmas about the generation pipeline -/

theorem assignGeneratedFields_stable (fields : List (String × Json))
    (lang : Language) (env : GenEnv) (K : String)
    (h1 : K ≠ "lastUpdated") (h2 : K ≠ "generatedImage") :
    objGet (assignGeneratedFields fields lang env) K
      = objGet (objSet (objSet fields "id" (.str (natToString env.now)))
          "language" (.str (langCode lang))) K := by
  simp only [assignGeneratedFields]
  repeat' split
  all_goals repeat rw [objGet_objSet_other _ _ _ _ (Ne.symm h2)]
  all_goals repeat rw [objGet_objSet_other _ _ _ _ (Ne.symm h1)]
  all_goals rfl

theorem assignGeneratedFields_id (fields : List (String × Json))
    (lang : Language) (env : GenEnv) :
    objGet (assignGeneratedFields fields lang env) "id"
      = some (.str (natToString env.now)) := by
  rw [assignGeneratedFields_stable fields lang env "id" (by decide) (by decide),
    objGet_objSet_other _ _ _ _ (show ("language" : String) ≠ "id" by decide),
    objGet_objSet_same]

theorem assignGeneratedFields_language (fields : List (String × Json))
    (lang : Language) (env : GenEnv) :
    objGet (assignGeneratedFields fields lang env) "language"
      = some (.str (langCode lang)) := by
  rw [assignGeneratedFields_stable fields lang env "language" (by decide)
      (by decide),
    objGet_objSet_same]

theorem generateRewikiArticle_ok_id (topic : String) (lang : Language)
    (s : String) (env : GenEnv) (fs : List (String × Json))
    (h : generateRewikiArticle topic lang (some s) env = .ok (.obj fs)) :
    objGet fs "id" = some (.str (natToString env.now)) ∧
    objGet fs "language" = some (.str (langCode lang)) := by
  simp only [generateRewikiArticle] at h
  cases hp : jsonParse (cleanJson s) with
  | none => rw [hp] at h; simp at h
  | some j =>
    rw [hp] at h
    cases j with
    | obj fields =>
      simp only [Except.ok.injEq, Json.obj.injEq] at h
      subst h
      exact ⟨assignGeneratedFields_id fields lang env,
        assignGeneratedFields_language fields lang env⟩
    | null => simp at h
    | bool b => simp at h
    | num lx => simp at h
    | str st => simp at h
    | arr xs => simp at h

theorem generateRewikiArticle_obj (topic : String) (lang : Language)
    (s : String) (env : GenEnv)
    (h : isObjJson (jsonParse (cleanJson s)) = true) :
    ∃ fs, generateRewikiArticle topic lang (some s) env = .ok (.obj fs) := by
  simp only [generateRewikiArticle]
  cases hp : jsonParse (cleanJson s) with
  | none => rw [hp] at h; simp [isObjJson] at h
  | some j =>
    rw [hp] at h
    cases j with
    | obj fields => exact ⟨assignGeneratedFields fields lang env, rfl⟩
    | null => simp [isObjJson] at h
    | bool b => simp [isObjJson] at h
    | num lx => simp [isObjJson] at h
    | str st => simp [isObjJson] at h
    | arr xs => simp [isObjJson] at h

/-! ## Claims C1 and C2: generation success and failure -/

/-- Claim C1, amended: for every external payload whose fence-stripped
text parses as a JSON object — in particular every payload in the
Article shape — and every requested language, `generateArticle` succeeds
and returns an article whose identifier is the decimal rendering of the
generation-time clock reading, hence differing from the identifier of
any other call whose clock reading differs, and whose `language`
property equals the requested language regardless of any language value
echoed in the payload.  The original claim (identifier differs from the
one of every prior call in the same process, unconditionally) is refuted
by `generateArticle_same_tick_same_id`. -/
theorem generateArticle_fresh_id_and_language (topic : String)
    (lang : Language) (s : String) (env : GenEnv)
    (h : isObjJson (jsonParse (cleanJson s)) = true) :
    ∃ fs, generateRewikiArticle topic lang (some s) env = .ok (.obj fs) ∧
      objGet fs "id" = some (.str (natToString env.now)) ∧
      objGet fs "language" = some (.str (langCode lang)) ∧
      ∀ (topic2 : String) (lang2 : Language) (s2 : String) (env2 : GenEnv)
        (fs2 : List (String × Json)),
        generateRewikiArticle topic2 lang2 (some s2) env2 = .ok (.obj fs2) →
        env2.now ≠ env.now → objGet fs2 "id" ≠ objGet fs "id" := by
  obtain ⟨fs, hok⟩ := generateRewikiArticle_obj topic lang s env h
  obtain ⟨hid, hlang⟩ := generateRewikiArticle_ok_id topic lang s env fs hok
  refine ⟨fs, hok, hid, hlang, ?_⟩
  intro topic2 lang2 s2 env2 fs2 hok2 hne
  obtain ⟨hid2, hlang2⟩ := generateRewikiArticle_ok_id topic2 lang2 s2 env2 fs2 hok2
  rw [hid, hid2]
  intro hcontra
  simp only [Option.some.injEq, Json.str.injEq] at hcontra
  exact hne (natToString_injective hcontra)

/-- Claim C1, counterexample to the claim as stated: two calls whose
`Date.now()` readings fall in the same millisecond are assigned the same
identifier, so the identifier of a call does not always differ from the
identifier returned by a prior call in the same process. -/
theorem generateArticle_same_tick_same_id :
    genIdOf (generateRewikiArticle "Cats" .en (some payloadCats)
        ⟨1700000000, "1/1/2024", none⟩) = some (.str "1700000000") ∧
    genIdOf (generateRewikiArticle "Dogs" .es (some payloadDogs)
        ⟨1700000000, "1/1/2024", none⟩) = some (.str "1700000000") :=
  ⟨rfl, rfl⟩

/-- Claim C1, witness: the amended theorem applied to a concrete
Article-shaped payload that echoes `"language": "en"` while Spanish is
requested. -/
theorem generateArticle_fresh_id_and_language_witness :
    isObjJson (jsonParse (cleanJson payloadCats)) = true ∧
    (∃ fs, generateRewikiArticle "Cats" .es (some payloadCats)
        ⟨777, "1/1/2025", none⟩ = .ok (.obj fs) ∧
      objGet fs "id" = some (.str (natToString 777)) ∧
      objGet fs "language" = some (.str (langCode .es)) ∧
      ∀ (topic2 : String) (lang2 : Language) (s2 : String) (env2 : GenEnv)
        (fs2 : List (String × Json)),
        generateRewikiArticle topic2 lang2 (some s2) env2 = .ok (.obj fs2) →
        env2.now ≠ 777 → objGet fs2 "id" ≠ objGet fs "id") :=
  ⟨rfl, generateArticle_fresh_id_and_language "Cats" .es payloadCats
    ⟨777, "1/1/2025", none⟩ rfl⟩

/-- Claim C2: whenever the external call returns no text, or text whose
fence-stripped form does not parse as JSON, `generateArticle` fails with
a single `GenerationFailure` error (`noContent` or `invalidJson`) and no
article value is returned; the embedding performs the external call
once, so there is no retry. -/
theorem generateArticle_failure (topic : String) (lang : Language)
    (responseText : Option String) (env : GenEnv)
    (h : responseText = none ∨
      ∃ t, responseText = some t ∧ jsonParse (cleanJson t) = none) :
    (∃ e, generateRewikiArticle topic lang responseText env = .error e) ∧
    ∀ a, generateRewikiArticle topic lang responseText env ≠ .ok a := by
  have herr : ∃ e, generateRewikiArticle topic lang responseText env
      = .error e := by
    rcases h with h | ⟨t, ht, hp⟩
    · subst h
      exact ⟨.noContent, rfl⟩
    · subst ht
      refine ⟨.invalidJson, ?_⟩
      simp only [generateRewikiArticle]
      rw [hp]
  obtain ⟨e, he⟩ := herr
  refine ⟨⟨e, he⟩, ?_⟩
  intro a ha
  rw [he] at ha
  simp at ha

/-- Claim C2, witness: a natural-language refusal is not JSON, and the
generator fails on it without producing an article. -/
theorem generateArticle_failure_witness :
    ((some "I could not produce that article." : Option String) = none ∨
      ∃ t, (some "I could not produce that article." : Option String) = some t ∧
        jsonParse (cleanJson t) = none) ∧
    ((∃ e, generateRewikiArticle "Cats" .en
        (some "I could not produce that article.") ⟨7, "d", none⟩ = .error e) ∧
      ∀ a, generateRewikiArticle "Cats" .en
        (some "I could not produce that article.") ⟨7, "d", none⟩ ≠ .ok a) :=
  ⟨Or.inr ⟨_, rfl, rfl⟩,
    generateArticle_failure "Cats" .en _ _ (Or.inr ⟨_, rfl, rfl⟩)⟩

/-! ## Claim C3: the Revision Analyzer absorbs failures -/

/-- Claim C3: for every argument vector and every failing behaviour of
the external service (thrown transport error, response without text, or
response text that does not parse as JSON), `analyzeRevision` returns
the fixed service-unavailable verdict: `accepted = false` with a
non-empty reasoning string.  The embedded function is total, which is
the model of "never raises past its own boundary". -/
theorem analyzeRevision_total_on_failure
    (currentText userSelection userRequest : String)
    (lang : Language) (editType : EditType)
    (response : Except Unit (Option String))
    (h : isServiceFailure response) :
    analyzeRevision currentText userSelection userRequest lang editType response
      = serviceUnavailableVerdict ∧
    (analyzeRevision currentText userSelection userRequest lang editType
      response).accepted = false ∧
    (analyzeRevision currentText userSelection userRequest lang editType
      response).reasoning = "AI Service unavailable or response invalid." ∧
    (analyzeRevision currentText userSelection userRequest lang editType
      response).reasoning ≠ "" := by
  have hv : analyzeRevision currentText userSelection userRequest lang editType
      response = serviceUnavailableVerdict := by
    rcases h with h | h | ⟨t, ht, hp⟩
    · subst h; rfl
    · subst h; rfl
    · subst ht
      simp only [analyzeRevision]
      rw [hp]
  refine ⟨hv, ?_, ?_, ?_⟩ <;> rw [hv] <;> simp [serviceUnavailableVerdict]

/-- Claim C3, witness: a simulated transport error. -/
theorem analyzeRevision_total_on_failure_witness :
    isServiceFailure (.error ()) ∧
    (analyzeRevision "ctx" "sel" "req" .en .fix (.error ())
        = serviceUnavailableVerdict ∧
      (analyzeRevision "ctx" "sel" "req" .en .fix (.error ())).accepted = false ∧
      (analyzeRevision "ctx" "sel" "req" .en .fix (.error ())).reasoning
        = "AI Service unavailable or response invalid." ∧
      (analyzeRevision "ctx" "sel" "req" .en .fix (.error ())).reasoning ≠ "") :=
  ⟨Or.inl rfl,
    analyzeRevision_total_on_failure "ctx" "sel" "req" .en .fix (.error ())
      (Or.inl rfl)⟩

/-! ## Claims C4 to C7 and C10: applying a revision -/

/-- Claim C5, amended: for every article, given `editKind = Add` and an
accepted verdict with non-empty `replacementContent` Y, the revision
appends exactly one section at the end, with body Y, the fixed heading
"New Section", and an identifier newly assigned from the revision-time
clock (the decimal rendering of `Date.now()`), and appends the note
recording an `Add` edit to `changeLog`.  The original claim's
unconditional freshness of the section identifier is refuted by
`applyRevision_add_id_collision`: the clock rendering can coincide with
an existing section identifier. -/
theorem applyRevision_add (article : RewikiArticle) (selection : Option String)
    (result : RevisionResult) (now : Nat) (Y : String)
    (hacc : result.accepted = true) (hrc : result.newContent = some Y)
    (hne : Y ≠ "") :
    applyRevision article selection .add result now
      = some { article with
          sections := article.sections ++
            [{ id := natToString now, heading := "New Section", content := Y }]
          changeLog := article.changeLog ++ " | " ++ "Added section" } := by
  simp [applyRevision, hrc, jsTruthyStr, hne]

/-- Claim C5, counterexample to unconditional freshness: on an article
already containing a section with identifier "5" (as a prior `Add` in
clock millisecond 5 would leave behind), an `Add` revision at clock
reading 5 produces a second section with the same identifier "5". -/
theorem applyRevision_add_id_collision :
    (applyRevision sampleArticleId5 none .add ⟨true, some "Y", "ok"⟩ 5).map
        (fun a => a.sections.map (fun s => s.id)) = some ["5", "5"] := by
  decide

/-- Claim C5, witness: the amended theorem on a concrete article. -/
theorem applyRevision_add_witness :
    applyRevision sampleArticle none .add ⟨true, some "YY", "ok"⟩ 12
      = some { sampleArticle with
          sections := sampleArticle.sections ++
            [{ id := natToString 12, heading := "New Section", content := "YY" }]
          changeLog := sampleArticle.changeLog ++ " | " ++ "Added section" } :=
  applyRevision_add sampleArticle none ⟨true, some "YY", "ok"⟩ 12 "YY" rfl rfl
    (by decide)

/-- Characterization of the `Fix`-with-excerpt path: every section whose
body contains the excerpt gets its body replaced by
`newContent || body`, the others are untouched, and the edit note is
appended. -/
theorem applyRevision_fix_selection (article : RewikiArticle)
    (excerpt : String) (result : RevisionResult) (now : Nat) :
    applyRevision article (some excerpt) .fix result now
      = some { article with
          sections := article.sections.map (fun s =>
            if strIncludes s.content excerpt then
              { s with content := jsOrStr result.newContent s.content }
            else s)
          changeLog := article.changeLog ++ " | " ++ "Fixed info" } := by
  simp [applyRevision]

/-- Claim C6: for every article and selected excerpt, given
`editKind = Fix` and an accepted verdict with non-empty
`replacementContent` R, the revision replaces the body of every section
whose body contains the excerpt verbatim with R — all matching sections
receive the same R — and leaves every section not containing the
excerpt unchanged. -/
theorem applyRevision_fix_replaces_matches (article : RewikiArticle)
    (excerpt R : String) (result : RevisionResult) (now : Nat)
    (hacc : result.accepted = true) (hrc : result.newContent = some R)
    (hne : R ≠ "") :
    ∃ a', applyRevision article (some excerpt) .fix result now = some a' ∧
      a'.changeLog = article.changeLog ++ " | " ++ "Fixed info" ∧
      a'.sections.length = article.sections.length ∧
      ∀ j (hj : j < article.sections.length) (hj2 : j < a'.sections.length),
        (strIncludes (article.sections.get ⟨j, hj⟩).content excerpt = true →
          a'.sections.get ⟨j, hj2⟩
            = { article.sections.get ⟨j, hj⟩ with content := R }) ∧
        (strIncludes (article.sections.get ⟨j, hj⟩).content excerpt = false →
          a'.sections.get ⟨j, hj2⟩ = article.sections.get ⟨j, hj⟩) := by
  refine ⟨_, applyRevision_fix_selection article excerpt result now, rfl,
    by simp, ?_⟩
  intro j hj hj2
  constructor
  · intro hm
    simp only [List.get_eq_getElem] at hm
    simp [List.get_eq_getElem, List.getElem_map, hm, jsOrStr, hrc, hne]
  · intro hm
    simp only [List.get_eq_getElem] at hm
    simp [List.get_eq_getElem, List.getElem_map, hm]

/-- Claim C6, witness: the excerpt "ba" occurs in both sections of the
sample article and both bodies become "RR". -/
theorem applyRevision_fix_replaces_matches_witness :
    ∃ a', applyRevision sampleArticle (some "ba") .fix
        ⟨true, some "RR", "ok"⟩ 3 = some a' ∧
      a'.changeLog = sampleArticle.changeLog ++ " | " ++ "Fixed info" ∧
      a'.sections.length = sampleArticle.sections.length ∧
      ∀ j (hj : j < sampleArticle.sections.length)
        (hj2 : j < a'.sections.length),
        (strIncludes (sampleArticle.sections.get ⟨j, hj⟩).content "ba" = true →
          a'.sections.get ⟨j, hj2⟩
            = { sampleArticle.sections.get ⟨j, hj⟩ with content := "RR" }) ∧
        (strIncludes (sampleArticle.sections.get ⟨j, hj⟩).content "ba" = false →
          a'.sections.get ⟨j, hj2⟩ = sampleArticle.sections.get ⟨j, hj⟩) :=
  applyRevision_fix_replaces_matches sampleArticle "ba" "RR"
    ⟨true, some "RR", "ok"⟩ 3 rfl rfl (by decide)

/-- Claim C4: when the selected excerpt occurs in exactly one section,
a `Fix` revision with an accepted verdict carrying non-empty
`replacementContent` X makes that section's body equal X (identifier and
heading preserved) and leaves every other section byte-identical. -/
theorem applyRevision_fix_unique (article : RewikiArticle)
    (excerpt X : String) (result : RevisionResult) (now : Nat) (i : Nat)
    (hi : i < article.sections.length)
    (hacc : result.accepted = true) (hrc : result.newContent = some X)
    (hne : X ≠ "")
    (hmatch : strIncludes (article.sections.get ⟨i, hi⟩).content excerpt = true)
    (huniq : ∀ j (hj : j < article.sections.length),
      strIncludes (article.sections.get ⟨j, hj⟩).content excerpt = true → j = i) :
    ∃ a', applyRevision article (some excerpt) .fix result now = some a' ∧
      a'.sections.length = article.sections.length ∧
      a'.changeLog = article.changeLog ++ " | " ++ "Fixed info" ∧
      (∀ hi2 : i < a'.sections.length,
        (a'.sections.get ⟨i, hi2⟩).content = X ∧
        (a'.sections.get ⟨i, hi2⟩).id = (article.sections.get ⟨i, hi⟩).id ∧
        (a'.sections.get ⟨i, hi2⟩).heading
          = (article.sections.get ⟨i, hi⟩).heading) ∧
      ∀ j (hj : j < article.sections.length) (hj2 : j < a'.sections.length),
        j ≠ i → a'.sections.get ⟨j, hj2⟩ = article.sections.get ⟨j, hj⟩ := by
  simp only [List.get_eq_getElem] at hmatch huniq
  refine ⟨_, applyRevision_fix_selection article excerpt result now,
    by simp, rfl, ?_, ?_⟩
  · intro hi2
    refine ⟨?_, ?_, ?_⟩ <;>
      simp [List.get_eq_getElem, List.getElem_map, hmatch, jsOrStr, hrc, hne]
  · intro j hj hj2 hne2
    have hm : strIncludes (article.sections.get ⟨j, hj⟩).content excerpt
        = false := by
      simp only [List.get_eq_getElem]
      cases hb : strIncludes (article.sections[j]).content excerpt with
      | true => exact absurd (huniq j hj hb) hne2
      | false => rfl
    simp only [List.get_eq_getElem] at hm
    simp [List.get_eq_getElem, List.getElem_map, hm]

/-- Claim C4, witness: "foo" occurs only in the first section. -/
theorem applyRevision_fix_unique_witness :
    ∃ a', applyRevision sampleArticle (some "foo") .fix
        ⟨true, some "XX", "ok"⟩ 3 = some a' ∧
      a'.sections.length = sampleArticle.sections.length ∧
      a'.changeLog = sampleArticle.changeLog ++ " | " ++ "Fixed info" ∧
      (∀ hi2 : 0 < a'.sections.length,
        (a'.sections.get ⟨0, hi2⟩).content = "XX" ∧
        (a'.sections.get ⟨0, hi2⟩).id
          = (sampleArticle.sections.get ⟨0, by decide⟩).id ∧
        (a'.sections.get ⟨0, hi2⟩).heading
          = (sampleArticle.sections.get ⟨0, by decide⟩).heading) ∧
      ∀ j (hj : j < sampleArticle.sections.length) (hj2 : j < a'.sections.length),
        j ≠ 0 → a'.sections.get ⟨j, hj2⟩ = sampleArticle.sections.get ⟨j, hj⟩ :=
  applyRevision_fix_unique sampleArticle "foo" "XX" ⟨true, some "XX", "ok"⟩ 3 0
    (by decide) rfl rfl (by decide) (by decide)
    (by
      intro j hj hm
      have hj2 : j < 2 := by simpa [sampleArticle] using hj
      interval_cases j
      · rfl
      · rw [show sampleArticle.sections.get ⟨1, hj⟩
            = ⟨"s2", "H2", "baz qux"⟩ from rfl] at hm
        exact absurd hm (by decide))

/-- Claim C7: a general `Fix` (no excerpt) with an accepted verdict
carrying non-empty `replacementContent` X replaces the body of the first
section only and leaves all other sections unchanged; the operation
indexes the first section directly, so it is defined exactly when the
sections list is non-empty (on an empty list the source throws), and
under that precondition the out-of-bounds branch is unreachable. -/
theorem applyRevision_general_fix (article : RewikiArticle)
    (result : RevisionResult) (now : Nat) (X : String)
    (hacc : result.accepted = true) (hrc : result.newContent = some X)
    (hne : X ≠ "") :
    (∀ s0 rest, article.sections = s0 :: rest →
      applyRevision article none .fix result now
        = some { article with
            sections := ({ s0 with content := X }) :: rest
            changeLog := article.changeLog ++ " | " ++ "Fixed info" }) ∧
    (article.sections = [] →
      applyRevision article none .fix result now = none) := by
  constructor
  · intro s0 rest hsec
    simp [applyRevision, hrc, jsTruthyStr, hne, hsec]
  · intro hsec
    simp [applyRevision, hrc, jsTruthyStr, hne, hsec]

/-- Claim C7, witness. -/
theorem applyRevision_general_fix_witness :
    (∀ s0 rest, sampleArticle.sections = s0 :: rest →
      applyRevision sampleArticle none .fix ⟨true, some "ZZ", "ok"⟩ 3
        = some { sampleArticle with
            sections := ({ s0 with content := "ZZ" }) :: rest
            changeLog := sampleArticle.changeLog ++ " | " ++ "Fixed info" }) ∧
    (sampleArticle.sections = [] →
      applyRevision sampleArticle none .fix ⟨true, some "ZZ", "ok"⟩ 3 = none) :=
  applyRevision_general_fix sampleArticle ⟨true, some "ZZ", "ok"⟩ 3 "ZZ" rfl rfl
    (by decide)

/-- Claim C10: for every article and accepted verdict whose `newContent`
is absent or empty, the revision leaves every section unchanged in value
— no section is appended even for `Add`, no body replaced for `Fix` —
yet the edit note is still appended to `changeLog`; for `Add` the note
says a section was added although none was. -/
theorem applyRevision_empty_newContent (article : RewikiArticle)
    (selection : Option String) (editType : EditType)
    (result : RevisionResult) (now : Nat)
    (hacc : result.accepted = true)
    (h : result.newContent = none ∨ result.newContent = some "") :
    ∃ a', applyRevision article selection editType result now = some a' ∧
      a'.sections = article.sections ∧
      a'.changeLog = article.changeLog ++ " | " ++
        (if editType = .add then "Added section" else "Fixed info") ∧
      (editType = .add →
        a'.changeLog = article.changeLog ++ " | " ++ "Added section") := by
  have htr : jsTruthyStr result.newContent = false := by
    rcases h with h | h <;> simp [jsTruthyStr, h]
  have hor : ∀ d : String, jsOrStr result.newContent d = d := by
    intro d
    rcases h with h | h <;> simp [jsOrStr, h]
  have hmap : article.sections.map (fun s =>
      if (match selection with
          | some sel => strIncludes s.content sel
          | none => false) then
        { s with content := jsOrStr result.newContent s.content }
      else s) = article.sections := by
    have hpt : ∀ s ∈ article.sections, (if (match selection with
        | some sel => strIncludes s.content sel
        | none => false) then
          { s with content := jsOrStr result.newContent s.content }
        else s) = s := by
      intro s hs
      rw [hor]
      split <;> rfl
    rw [List.map_congr_left hpt, List.map_id']
  refine ⟨{ article with
      sections := article.sections
      changeLog := article.changeLog ++ " | " ++
        (if editType = .add then "Added section" else "Fixed info") }, ?_, rfl,
    rfl, fun hadd => by simp [hadd]⟩
  simp only [applyRevision, htr]
  rw [if_neg (by simp [htr])]
  rw [if_neg (by simp [htr])]
  rw [hmap]

/-- Claim C10, witness: an accepted `Add` verdict with empty replacement
content changes no section but still logs "Added section". -/
theorem applyRevision_empty_newContent_witness :
    ∃ a', applyRevision sampleArticle (some "foo") .add
        ⟨true, some "", "approved"⟩ 3 = some a' ∧
      a'.sections = sampleArticle.sections ∧
      a'.changeLog = sampleArticle.changeLog ++ " | " ++
        (if (EditType.add : EditType) = .add then "Added section"
          else "Fixed info") ∧
      ((EditType.add : EditType) = .add →
        a'.changeLog = sampleArticle.changeLog ++ " | " ++ "Added section") :=
  applyRevision_empty_newContent sampleArticle (some "foo") .add
    ⟨true, some "", "approved"⟩ 3 rfl (Or.inr rfl)

/-! ## Claim C8: the bounded, deduplicated history -/

theorem runHistory_concat (l : List RewikiArticle) (a : RewikiArticle) :
    runHistory (l ++ [a]) = addToHistoryStep a (runHistory l) := by
  simp [runHistory, List.foldl_append]

theorem addToHistory_length (a : RewikiArticle) (h : List RewikiArticle) :
    (addToHistory a h).length ≤ 10 := by
  simp [addToHistory]

theorem addToHistory_topics_nodup (a : RewikiArticle) (h : List RewikiArticle)
    (hn : (h.map (fun x => x.topic)).Nodup) :
    ((addToHistory a h).map (fun x => x.topic)).Nodup := by
  unfold addToHistory
  have hsub : List.Sublist
      (((a :: h.filter (fun x => x.topic != a.topic)).take 10).map
        (fun x => x.topic))
      ((a :: h.filter (fun x => x.topic != a.topic)).map (fun x => x.topic)) :=
    (List.take_sublist _ _).map _
  apply hsub.nodup
  rw [List.map_cons, List.nodup_cons]
  constructor
  · intro hmem
    obtain ⟨x, hx, hxt⟩ := List.mem_map.mp hmem
    exact absurd hxt (by simpa using (List.mem_filter.mp hx).2)
  · exact hn.sublist ((List.filter_sublist _).map _)

theorem runHistory_topics_nodup (l : List RewikiArticle) :
    ((runHistory l).history.map (fun x => x.topic)).Nodup := by
  suffices hgen : ∀ (m : List RewikiArticle) (st : HistoryStore),
      (st.history.map (fun x => x.topic)).Nodup →
      (((m.foldl (fun st a => addToHistoryStep a st) st).history.map
        (fun x => x.topic)).Nodup) by
    exact hgen l _ (by simp)
  intro m
  induction m with
  | nil => intro st h; exact h
  | cons a as ih =>
    intro st h
    simp only [List.foldl_cons]
    exact ih _ (addToHistory_topics_nodup a st.history h)

theorem runHistory_sublist (l : List RewikiArticle) :
    (runHistory l).history.Sublist l.reverse := by
  induction l using List.reverseRecOn with
  | nil => simp [runHistory]
  | append_singleton as a ih =>
    rw [runHistory_concat, List.reverse_append]
    simp only [addToHistoryStep, addToHistory, List.reverse_cons,
      List.reverse_nil, List.nil_append, List.singleton_append]
    exact (List.take_sublist _ _).trans
      (((List.filter_sublist _).trans ih).cons₂ a)



/-- Claim C8: after any sequence of article insertions, the history
holds at most 10 entries with pairwise distinct topics, ordered
most-recent-first (it is a subsequence of the reversed insertion
sequence); the entry just inserted sits first, and when its topic
repeats an earlier insertion only the most recent article with that
topic is retained; every change persists the whole list as a single
overwrite (the stored value equals the full in-memory list). -/
theorem history_invariants (inserts : List RewikiArticle) (a : RewikiArticle) :
    (runHistory (inserts ++ [a])).history.length ≤ 10 ∧
    ((runHistory (inserts ++ [a])).history.map (fun x => x.topic)).Nodup ∧
    (runHistory (inserts ++ [a])).history.head? = some a ∧
    (∀ b ∈ (runHistory (inserts ++ [a])).history, b.topic = a.topic → b = a) ∧
    (runHistory (inserts ++ [a])).stored
      = some (runHistory (inserts ++ [a])).history ∧
    List.Sublist (runHistory (inserts ++ [a])).history
      (inserts ++ [a]).reverse := by
  refine ⟨?_, runHistory_topics_nodup _, ?_, ?_, ?_, runHistory_sublist _⟩
  · rw [runHistory_concat]
    exact addToHistory_length _ _
  · rw [runHistory_concat]
    show ((a :: _).take 10).head? = some a
    rw [show (10 : Nat) = 9 + 1 from rfl, List.take_succ_cons]
    rfl
  · intro b hb ht
    rw [runHistory_concat] at hb
    simp only [addToHistoryStep, addToHistory] at hb
    rcases List.mem_cons.mp (List.mem_of_mem_take hb) with h1 | h1
    · exact h1
    · exact absurd ht (by simpa using (List.mem_filter.mp h1).2)
  · rw [runHistory_concat]
    rfl

/-- Claim C8, witness: topics Cats, Dogs, Cats — the repeated topic
keeps only its most recent article, placed first, and the whole list is
persisted. -/
theorem history_invariants_witness :
    (runHistory ([sampleArticle, sampleArticleB] ++ [sampleArticleA2])).history.length ≤ 10 ∧
    ((runHistory ([sampleArticle, sampleArticleB] ++ [sampleArticleA2])).history.map
      (fun x => x.topic)).Nodup ∧
    (runHistory ([sampleArticle, sampleArticleB] ++ [sampleArticleA2])).history.head?
      = some sampleArticleA2 ∧
    (∀ b ∈ (runHistory ([sampleArticle, sampleArticleB] ++ [sampleArticleA2])).history,
      b.topic = sampleArticleA2.topic → b = sampleArticleA2) ∧
    (runHistory ([sampleArticle, sampleArticleB] ++ [sampleArticleA2])).stored
      = some (runHistory ([sampleArticle, sampleArticleB] ++ [sampleArticleA2])).history ∧
    List.Sublist (runHistory ([sampleArticle, sampleArticleB] ++ [sampleArticleA2])).history
      ([sampleArticle, sampleArticleB] ++ [sampleArticleA2]).reverse :=
  history_invariants [sampleArticle, sampleArticleB] sampleArticleA2


/-! ## Claim C9: fence-wrapped payloads parse identically -/

/-- A character of a JSON number lexeme is neither whitespace nor a
backtick. -/
theorem lexemeOkChar_props (c : Char) (h : lexemeOkChar c = true) :
    isSpaceJS c = false ∧ c ≠ '`' := by
  have hd : c.isDigit = true ∨ c = '-' ∨ c = '+' ∨ c = '.' ∨ c = 'e' ∨ c = 'E' := by
    simpa [lexemeOkChar, Bool.or_eq_true, or_assoc] using h
  rcases hd with hd | rfl | rfl | rfl | rfl | rfl
  · have h1 : '0' ≤ c ∧ c ≤ '9' := by simpa [Char.isDigit] using hd
    constructor
    · simp only [isSpaceJS, Bool.or_eq_false_iff, decide_eq_false_iff_not]
      repeat' constructor
      all_goals rintro rfl
      all_goals revert h1
      all_goals decide
    · rintro rfl
      revert h1
      decide
  all_goals exact ⟨by decide, by decide⟩

/-- Serialized JSON text is non-empty and neither starts nor ends with
whitespace or a backtick (given a well-formed top-level number lexeme):
values open with a structural character or a numeral character and close
with one. -/
theorem serializeJson_ends (j : Json) (hnum : jsonTopNumOk j) :
    serializeJson j ≠ [] ∧
    (∀ c, (serializeJson j).head? = some c → isSpaceJS c = false ∧ c ≠ '`') ∧
    (∀ c, (serializeJson j).getLast? = some c →
      isSpaceJS c = false ∧ c ≠ '`') := by
  cases j with
  | null =>
    refine ⟨by decide, ?_, ?_⟩
    · intro c hc
      rw [show (serializeJson .null).head? = some 'n' from rfl] at hc
      cases hc
      exact ⟨by decide, by decide⟩
    · intro c hc
      rw [show (serializeJson .null).getLast? = some 'l' from rfl] at hc
      cases hc
      exact ⟨by decide, by decide⟩
  | bool b =>
    cases b
    · refine ⟨by decide, ?_, ?_⟩
      · intro c hc
        rw [show (serializeJson (.bool false)).head? = some 'f' from rfl] at hc
        cases hc
        exact ⟨by decide, by decide⟩
      · intro c hc
        rw [show (serializeJson (.bool false)).getLast? = some 'e' from rfl] at hc
        cases hc
        exact ⟨by decide, by decide⟩
    · refine ⟨by decide, ?_, ?_⟩
      · intro c hc
        rw [show (serializeJson (.bool true)).head? = some 't' from rfl] at hc
        cases hc
        exact ⟨by decide, by decide⟩
      · intro c hc
        rw [show (serializeJson (.bool true)).getLast? = some 'e' from rfl] at hc
        cases hc
        exact ⟨by decide, by decide⟩
  | num lexeme =>
    obtain ⟨hne, hall⟩ := hnum
    refine ⟨by simpa [serializeJson] using hne, ?_, ?_⟩
    · intro c hc
      have hmem : c ∈ lexeme.data := by
        cases hd : lexeme.data with
        | nil => exact absurd hd hne
        | cons a t =>
          rw [serializeJson, hd] at hc
          simp at hc
          simp [hd, hc]
      exact lexemeOkChar_props c (List.all_eq_true.mp hall c hmem)
    · intro c hc
      have hmem : c ∈ lexeme.data := by
        have : (serializeJson (.num lexeme)).getLast? = lexeme.data.getLast? := rfl
        rw [this] at hc
        exact List.mem_of_getLast?_eq_some hc
      exact lexemeOkChar_props c (List.all_eq_true.mp hall c hmem)
  | str s =>
    refine ⟨by simp [serializeJson], ?_, ?_⟩
    · intro c hc
      simp [serializeJson] at hc
      subst hc
      exact ⟨by decide, by decide⟩
    · intro c hc
      have : (serializeJson (.str s)).getLast? = some '"' := by
        rw [serializeJson, ← List.cons_append, List.getLast?_concat]
      rw [this] at hc
      cases hc
      exact ⟨by decide, by decide⟩
  | arr xs =>
    refine ⟨by simp [serializeJson], ?_, ?_⟩
    · intro c hc
      simp [serializeJson] at hc
      subst hc
      exact ⟨by decide, by decide⟩
    · intro c hc
      have : (serializeJson (.arr xs)).getLast? = some ']' := by
        rw [serializeJson, ← List.cons_append, List.getLast?_concat]
      rw [this] at hc
      cases hc
      exact ⟨by decide, by decide⟩
  | obj fs =>
    refine ⟨by simp [serializeJson], ?_, ?_⟩
    · intro c hc
      simp [serializeJson] at hc
      subst hc
      exact ⟨by decide, by decide⟩
    · intro c hc
      have : (serializeJson (.obj fs)).getLast? = some '\x7d' := by
        rw [serializeJson, ← List.cons_append, List.getLast?_concat]
      rw [this] at hc
      cases hc
      exact ⟨by decide, by decide⟩



/-- Dropping while a predicate holds does not touch an appended list
whose prefix starts with a failing character. -/
theorem dropWhile_append_head (p : Char → Bool) (l m : List Char)
    (hne : l ≠ []) (hh : ∀ c, l.head? = some c → p c = false) :
    (l ++ m).dropWhile p = l ++ m := by
  cases l with
  | nil => exact absurd rfl hne
  | cons a t =>
    rw [List.cons_append, List.dropWhile_cons]
    simp [hh a rfl]

/-- Dropping while a predicate holds is the identity when the head
fails the predicate. -/
theorem dropWhile_eq_self_head (p : Char → Bool) (l : List Char)
    (hh : ∀ c, l.head? = some c → p c = false) :
    l.dropWhile p = l := by
  cases l with
  | nil => rfl
  | cons a t =>
    rw [List.dropWhile_cons]
    simp [hh a rfl]

/-- Trimming is the identity on text with non-whitespace ends. -/
theorem trimJS_eq_self (l : List Char)
    (hhead : ∀ c, l.head? = some c → isSpaceJS c = false)
    (hlast : ∀ c, l.getLast? = some c → isSpaceJS c = false) :
    trimJS l = l := by
  unfold trimJS
  rw [dropWhile_eq_self_head _ _ hhead,
    dropWhile_eq_self_head _ _ (by simpa using hlast), List.reverse_reverse]

/-- On text that neither starts nor ends with whitespace or backticks,
`cleanJson` is the identity. -/
theorem cleanJson_id_of_ends (l : List Char) (hne : l ≠ [])
    (hhead : ∀ c, l.head? = some c → isSpaceJS c = false ∧ c ≠ '`')
    (hlast : ∀ c, l.getLast? = some c → isSpaceJS c = false ∧ c ≠ '`') :
    cleanJson ⟨l⟩ = (⟨l⟩ : String) := by
  have h1 : dropFencePrefixJson l = l := by
    unfold dropFencePrefixJson
    split
    · exact absurd rfl ((hhead '`' rfl).2)
    · rfl
  have h2 : dropFencePrefixPlain l = l := by
    unfold dropFencePrefixPlain
    split
    · exact absurd rfl ((hhead '`' rfl).2)
    · rfl
  have h3 : dropFenceSuffix l = l := by
    unfold dropFenceSuffix
    split
    · next rest heq =>
      have : l.getLast? = some '`' := by
        rw [← List.head?_reverse, heq]
        rfl
      exact absurd rfl ((hlast '`' this).2)
    · rfl
  show (⟨trimJS (dropFenceSuffix (dropFencePrefixPlain (dropFencePrefixJson l)))⟩ : String) = ⟨l⟩
  rw [h1, h2, h3, trimJS_eq_self l (fun c hc => (hhead c hc).1)
    (fun c hc => (hlast c hc).1)]



/-- Stripping a ```json fence: `cleanJson` recovers the wrapped text
exactly. -/
theorem cleanJson_json_fence (l : List Char) (hne : l ≠ [])
    (hhead : ∀ c, l.head? = some c → isSpaceJS c = false ∧ c ≠ '`')
    (hlast : ∀ c, l.getLast? = some c → isSpaceJS c = false ∧ c ≠ '`') :
    cleanJson ("```json\n" ++ (⟨l⟩ : String) ++ "\n```") = (⟨l⟩ : String) := by
  have hdata : ("```json\n" ++ (⟨l⟩ : String) ++ "\n```").data
      = '`' :: '`' :: '`' :: 'j' :: 's' :: 'o' :: 'n' :: '\n'
        :: (l ++ ['\n', '`', '`', '`']) := by
    rw [String.data_append, String.data_append]
    show ("```json\n".data ++ l) ++ "\n```".data = _
    rw [List.append_assoc]
    rfl
  have h1 : dropFencePrefixJson ('`' :: '`' :: '`' :: 'j' :: 's' :: 'o' :: 'n'
        :: '\n' :: (l ++ ['\n', '`', '`', '`'])) = l ++ ['\n', '`', '`', '`'] := by
    show (if ('j' = 'j' ∨ 'j' = 'J') ∧ ('s' = 's' ∨ 's' = 'S')
          ∧ ('o' = 'o' ∨ 'o' = 'O') ∧ ('n' = 'n' ∨ 'n' = 'N') then
        skipWsJS ('\n' :: (l ++ ['\n', '`', '`', '`']))
      else '`' :: '`' :: '`' :: 'j' :: 's' :: 'o' :: 'n' :: '\n'
        :: (l ++ ['\n', '`', '`', '`'])) = l ++ ['\n', '`', '`', '`']
    rw [if_pos (by decide)]
    unfold skipWsJS
    rw [List.dropWhile_cons, if_pos (by decide)]
    exact dropWhile_append_head _ _ _ hne (fun c hc => (hhead c hc).1)
  have h2 : dropFencePrefixPlain (l ++ ['\n', '`', '`', '`'])
      = l ++ ['\n', '`', '`', '`'] := by
    unfold dropFencePrefixPlain
    split
    · next rest heq =>
      cases l with
      | nil => exact absurd rfl hne
      | cons a t =>
        rw [List.cons_append] at heq
        injection heq with ha _
        exact absurd ha ((hhead a rfl).2)
    · rfl
  have h3 : dropFenceSuffix (l ++ ['\n', '`', '`', '`']) = l := by
    unfold dropFenceSuffix
    have hrev : (l ++ ['\n', '`', '`', '`']).reverse
        = '`' :: '`' :: '`' :: '\n' :: l.reverse := by
      simp
    rw [hrev]
    show (('\n' :: l.reverse).dropWhile isSpaceJS).reverse = l
    rw [List.dropWhile_cons, if_pos (by decide),
      dropWhile_eq_self_head _ _
        (fun c hc => (hlast c (by rwa [List.head?_reverse] at hc)).1),
      List.reverse_reverse]
  show (⟨trimJS (dropFenceSuffix (dropFencePrefixPlain (dropFencePrefixJson
    ("```json\n" ++ (⟨l⟩ : String) ++ "\n```").data)))⟩ : String) = ⟨l⟩
  rw [hdata, h1, h2, h3, trimJS_eq_self l (fun c hc => (hhead c hc).1)
    (fun c hc => (hlast c hc).1)]

/-- Stripping a plain ``` fence: `cleanJson` recovers the wrapped text
exactly. -/
theorem cleanJson_plain_fence (l : List Char) (hne : l ≠ [])
    (hhead : ∀ c, l.head? = some c → isSpaceJS c = false ∧ c ≠ '`')
    (hlast : ∀ c, l.getLast? = some c → isSpaceJS c = false ∧ c ≠ '`') :
    cleanJson ("```\n" ++ (⟨l⟩ : String) ++ "\n```") = (⟨l⟩ : String) := by
  have hdata : ("```\n" ++ (⟨l⟩ : String) ++ "\n```").data
      = '`' :: '`' :: '`' :: '\n' :: (l ++ ['\n', '`', '`', '`']) := by
    rw [String.data_append, String.data_append]
    show ("```\n".data ++ l) ++ "\n```".data = _
    rw [List.append_assoc]
    rfl
  have h1 : dropFencePrefixJson ('`' :: '`' :: '`' :: '\n'
        :: (l ++ ['\n', '`', '`', '`']))
      = '`' :: '`' :: '`' :: '\n' :: (l ++ ['\n', '`', '`', '`']) := by
    unfold dropFencePrefixJson
    split
    · next c1 c2 c3 c4 rest heq =>
      injection heq with heq1 heq2
      injection heq2 with heq2 heq3
      injection heq3 with heq3 heq4
      injection heq4 with heq4 heq5
      subst heq4
      rw [if_neg (fun hcond => absurd hcond.1 (by decide))]
      rw [heq5]
    · rfl
  have h2 : dropFencePrefixPlain ('`' :: '`' :: '`' :: '\n'
        :: (l ++ ['\n', '`', '`', '`'])) = l ++ ['\n', '`', '`', '`'] := by
    show skipWsJS ('\n' :: (l ++ ['\n', '`', '`', '`'])) = _
    unfold skipWsJS
    rw [List.dropWhile_cons, if_pos (by decide)]
    exact dropWhile_append_head _ _ _ hne (fun c hc => (hhead c hc).1)
  have h3 : dropFenceSuffix (l ++ ['\n', '`', '`', '`']) = l := by
    unfold dropFenceSuffix
    have hrev : (l ++ ['\n', '`', '`', '`']).reverse
        = '`' :: '`' :: '`' :: '\n' :: l.reverse := by
      simp
    rw [hrev]
    show (('\n' :: l.reverse).dropWhile isSpaceJS).reverse = l
    rw [List.dropWhile_cons, if_pos (by decide),
      dropWhile_eq_self_head _ _
        (fun c hc => (hlast c (by rwa [List.head?_reverse] at hc)).1),
      List.reverse_reverse]
  show (⟨trimJS (dropFenceSuffix (dropFencePrefixPlain (dropFencePrefixJson
    ("```\n" ++ (⟨l⟩ : String) ++ "\n```").data)))⟩ : String) = ⟨l⟩
  rw [hdata, h1, h2, h3, trimJS_eq_self l (fun c hc => (hhead c hc).1)
    (fun c hc => (hlast c hc).1)]



/-- Claim C9: for every JSON payload P (represented by its serialized
text), running the response handling on P's text wrapped in markdown
code fences — ```json or plain ``` — yields exactly the same cleaned
text, hence the same parse result and the same structured outcome of
`generateArticle`, as running it on the unwrapped text. -/
theorem cleanJson_fence_equiv (P : Json) (h : jsonTopNumOk P) :
    cleanJson ("```json\n" ++ serializeJsonStr P ++ "\n```")
      = cleanJson (serializeJsonStr P) ∧
    cleanJson ("```\n" ++ serializeJsonStr P ++ "\n```")
      = cleanJson (serializeJsonStr P) ∧
    jsonParse (cleanJson ("```json\n" ++ serializeJsonStr P ++ "\n```"))
      = jsonParse (cleanJson (serializeJsonStr P)) ∧
    ∀ (topic : String) (lang : Language) (env : GenEnv),
      generateRewikiArticle topic lang
          (some ("```json\n" ++ serializeJsonStr P ++ "\n```")) env
        = generateRewikiArticle topic lang (some (serializeJsonStr P)) env := by
  obtain ⟨hne, hhead, hlast⟩ := serializeJson_ends P h
  have hid := cleanJson_id_of_ends _ hne hhead hlast
  have hjf := cleanJson_json_fence _ hne hhead hlast
  have hpf := cleanJson_plain_fence _ hne hhead hlast
  have hj : cleanJson ("```json\n" ++ serializeJsonStr P ++ "\n```")
      = cleanJson (serializeJsonStr P) := by
    show cleanJson ("```json\n" ++ (⟨serializeJson P⟩ : String) ++ "\n```")
      = cleanJson (⟨serializeJson P⟩ : String)
    rw [hjf, hid]
  have hp : cleanJson ("```\n" ++ serializeJsonStr P ++ "\n```")
      = cleanJson (serializeJsonStr P) := by
    show cleanJson ("```\n" ++ (⟨serializeJson P⟩ : String) ++ "\n```")
      = cleanJson (⟨serializeJson P⟩ : String)
    rw [hpf, hid]
  refine ⟨hj, hp, by rw [hj], ?_⟩
  intro topic lang env
  simp only [generateRewikiArticle]
  rw [hj]

/-- Claim C9, witness: a concrete object payload. -/
theorem cleanJson_fence_equiv_witness :
    jsonTopNumOk (Json.obj [("a", Json.str "b")]) ∧
    (cleanJson ("```json\n" ++ serializeJsonStr (Json.obj [("a", Json.str "b")])
        ++ "\n```")
      = cleanJson (serializeJsonStr (Json.obj [("a", Json.str "b")])) ∧
    cleanJson ("```\n" ++ serializeJsonStr (Json.obj [("a", Json.str "b")])
        ++ "\n```")
      = cleanJson (serializeJsonStr (Json.obj [("a", Json.str "b")])) ∧
    jsonParse (cleanJson ("```json\n"
        ++ serializeJsonStr (Json.obj [("a", Json.str "b")]) ++ "\n```"))
      = jsonParse (cleanJson (serializeJsonStr (Json.obj [("a", Json.str "b")]))) ∧
    ∀ (topic : String) (lang : Language) (env : GenEnv),
      generateRewikiArticle topic lang
          (some ("```json\n" ++ serializeJsonStr (Json.obj [("a", Json.str "b")])
            ++ "\n```")) env
        = generateRewikiArticle topic lang
            (some (serializeJsonStr (Json.obj [("a", Json.str "b")]))) env) :=
  ⟨trivial, cleanJson_fence_equiv (Json.obj [("a", Json.str "b")]) trivial⟩


end Rewiki
